import Mathlib

/-!
# Verification of the Halogen-Go-Lambda archive-serving pipeline

Shallow embedding of the Go sources of this repository:

* `src/pkg/functions/methods.go` — namespace `MethodsGo` below:
  `GetLatestHashFilePair` (string-descending timestamp sort),
  `ReadZipFileFromS3`, `GetLatestFileKeyFromS3`, `GetZipFileFromS3`.
* `src/unnamed/part_000` — namespace `Part000` below:
  `GetLatestHashFilePair` (RFC3339-parsing timestamp sort),
  `GetLatestHashFilePairAndZip`, `fetchAndZipObjects`.
* `src/pkg/handlers/handlers.go` — the two `Handler` variants
  (method dispatch to the two GET pipelines).

External collaborators (DynamoDB, S3, the zip writer's byte stream and the
environment variable `bucketName`) are modelled by an explicit `Env` record
passed to each translated function; the Go code's calls into the AWS SDK
become reads of that record.  Byte strings are `List Nat` (one byte per
element); Go's byte-indexed `string` is mapped to Lean `String` through
`byteStr`, one `Char` per byte.
-/

/-- Byte sequences: Go `[]byte`, one `Nat` per byte. -/
abbrev Bytes := List Nat

/-- Go `string(data)`: view a byte sequence as a string, one char per byte. -/
def byteStr (bs : Bytes) : String := String.mk (bs.map Char.ofNat)

/-- Bytes of an ASCII string (entry names, error texts). -/
def strBytes (s : String) : Bytes := s.data.map Char.toNat

/-- Go `strings.HasPrefix p s` (byte-wise; chars here). -/
def strHasPfx (p s : String) : Bool := p.data.isPrefixOf s.data

/-- Go `strings.HasSuffix s suf`. -/
def strEndsWith (s suf : String) : Bool := suf.data.isSuffixOf s.data

/-- Go `strings.TrimPrefix s p`: drop `p` from the front of `s` when present. -/
def trimPfx (s p : String) : String :=
  if p.data.isPrefixOf s.data then String.mk (s.data.drop p.data.length) else s

/-- Go `<` on strings: lexicographic comparison, by code point (for the
ASCII timestamps at issue this coincides with Go's byte order). -/
def strLtL : List Char → List Char → Bool
  | [], [] => false
  | [], _ :: _ => true
  | _ :: _, [] => false
  | a :: as, b :: bs =>
    if a.toNat < b.toNat then true
    else if b.toNat < a.toNat then false
    else strLtL as bs

/-- Go `s < t` on strings. -/
def goStrLess (s t : String) : Bool := strLtL s.data t.data

/-- Substring containment, used to state "body contains ...". -/
def containsStr (s sub : String) : Prop := sub.data <:+: s.data

instance (s sub : String) : Decidable (containsStr s sub) := by
  unfold containsStr; infer_instance

/-! ## RFC3339 timestamp parsing (Go `time.Parse(time.RFC3339, s)`)

The Go sources sort records by `time.Parse(time.RFC3339, ts)` and compare
instants with `Time.After`.  We model a parsed instant as an `Int` count of
nanoseconds since 1970-01-01T00:00:00Z; `parseRFC3339` accepts exactly the
RFC3339 shapes `time.RFC3339` accepts: date, `T`, clock time, optional
fractional seconds, then `Z` or a numeric `±hh:mm` offset, with
calendar-valid date and clock fields. -/

/-- Decimal digit value of a char, if it is a digit. -/
def digitVal (c : Char) : Option Nat :=
  if 48 ≤ c.toNat && c.toNat ≤ 57 then some (c.toNat - 48) else none

/-- Read exactly two digits. -/
def read2 : List Char → Option (Nat × List Char)
  | a :: b :: rest => do
      let x ← digitVal a
      let y ← digitVal b
      pure (x * 10 + y, rest)
  | _ => none

/-- Read exactly four digits. -/
def read4 : List Char → Option (Nat × List Char)
  | a :: b :: c :: d :: rest => do
      let x ← digitVal a
      let y ← digitVal b
      let z ← digitVal c
      let w ← digitVal d
      pure (x * 1000 + y * 100 + z * 10 + w, rest)
  | _ => none

/-- Consume one expected char. -/
def readChar (ch : Char) : List Char → Option (List Char)
  | c :: rest => if c = ch then some rest else none
  | [] => none

/-- Consume fractional-second digits, keeping the first nine significant
digits (`acc`) and their count (`n`). -/
def fracLoop : List Char → Nat → Nat → Nat × Nat × List Char
  | [], acc, n => (acc, n, [])
  | c :: rest, acc, n =>
    match digitVal c with
    | some d => if n < 9 then fracLoop rest (acc * 10 + d) (n + 1) else fracLoop rest acc n
    | none => (acc, n, c :: rest)

/-- Optional `.digits` fraction, as nanoseconds. -/
def readFrac : List Char → Option (Nat × List Char)
  | '.' :: rest =>
      match fracLoop rest 0 0 with
      | (_, 0, _) => none
      | (acc, n, rest') => some (acc * 10 ^ (9 - n), rest')
  | l => some (0, l)

/-- Trailing zone: `Z` or `±hh:mm`, as seconds east of UTC; the whole input
must be consumed. -/
def readZone : List Char → Option Int
  | ['Z'] => some 0
  | '+' :: rest => do
      let (h, r1) ← read2 rest
      let r2 ← readChar ':' r1
      let (m, r3) ← read2 r2
      if r3.isEmpty then pure ((h * 3600 + m * 60 : Nat) : Int) else none
  | '-' :: rest => do
      let (h, r1) ← read2 rest
      let r2 ← readChar ':' r1
      let (m, r3) ← read2 r2
      if r3.isEmpty then pure (-((h * 3600 + m * 60 : Nat) : Int)) else none
  | _ => none

/-- Gregorian leap year. -/
def isLeap (y : Nat) : Bool := y % 4 = 0 && (y % 100 ≠ 0 || y % 400 = 0)

/-- Days in a month. -/
def daysInMonth (y m : Nat) : Nat :=
  match m with
  | 2 => if isLeap y then 29 else 28
  | 4 => 30 | 6 => 30 | 9 => 30 | 11 => 30
  | _ => 31

/-- Days from 1970-01-01 to the given civil date (Hinnant's algorithm). -/
def daysFromCivil (y m d : Int) : Int :=
  let yy : Int := if m ≤ 2 then y - 1 else y
  let era : Int := (if 0 ≤ yy then yy else yy - 399) / 400
  let yoe : Int := yy - era * 400
  let mp : Int := if 2 < m then m - 3 else m + 9
  let doy : Int := (153 * mp + 2) / 5 + d - 1
  let doe : Int := yoe * 365 + yoe / 4 - yoe / 100 + doy
  era * 146097 + doe - 719468

/-- Parse an RFC3339 timestamp to nanoseconds since the Unix epoch, `none`
on any shape or range error (Go `time.Parse(time.RFC3339, s)` failing). -/
def parseRFC3339 (s : String) : Option Int := do
  let (y, r1) ← read4 s.data
  let r2 ← readChar '-' r1
  let (mo, r3) ← read2 r2
  let r4 ← readChar '-' r3
  let (d, r5) ← read2 r4
  let r6 ← readChar 'T' r5
  let (h, r7) ← read2 r6
  let r8 ← readChar ':' r7
  let (mi, r9) ← read2 r8
  let r10 ← readChar ':' r9
  let (sec, r11) ← read2 r10
  let (nanos, r12) ← readFrac r11
  let off ← readZone r12
  if 1 ≤ mo && mo ≤ 12 && 1 ≤ d && d ≤ daysInMonth y mo
      && h ≤ 23 && mi ≤ 59 && sec ≤ 59 then
    some ((daysFromCivil (y : Int) (mo : Int) (d : Int) * 86400
            + ((h * 3600 + mi * 60 + sec : Nat) : Int) - off) * 1000000000
          + (nanos : Int))
  else none

/-- Sort key the Go code derives from a timestamp string: the parsed instant,
degrading to the zero value when parsing fails (`ti, _ := time.Parse(...)`). -/
def goTimeKey (s : String) : Int := (parseRFC3339 s).getD 0

example : (parseRFC3339 "2024-01-01T10:00:00Z").isSome = true := by decide
example : (parseRFC3339 "2024-01-01T12:00:00+09:00").isSome = true := by decide
example : goTimeKey "2024-01-01T12:00:00+09:00" < goTimeKey "2024-01-01T10:00:00Z" := by decide
example : parseRFC3339 "2024-13-01T10:00:00Z" = none := by decide

/-! ## Go `sort.Slice` with a `less` comparator

All three sorts in the sources use comparators of the form "`i` before `j`
iff `less i j`".  We model `sort.Slice` by insertion sort with that
comparator: under the pairwise-distinct-key hypotheses of the claims the
comparator is a strict total order, every correct sort produces the same
list, and this model coincides with whichever algorithm `sort.Slice` runs. -/

/-- Insert `x` into `l`, placing it before the first element `y` with
`less x y`. -/
def insertBy {α : Type} (less : α → α → Bool) (x : α) : List α → List α
  | [] => [x]
  | y :: ys => if less x y then x :: y :: ys else y :: insertBy less x ys

/-- Model of Go `sort.Slice` with comparator `less`. -/
def sortSlice {α : Type} (less : α → α → Bool) : List α → List α
  | [] => []
  | x :: xs => insertBy less x (sortSlice less xs)

theorem mem_insertBy {α : Type} (less : α → α → Bool) (x : α) (l : List α) (z : α) :
    z ∈ insertBy less x l ↔ z = x ∨ z ∈ l := by
  induction l with
  | nil => simp [insertBy]
  | cons y ys ih =>
    simp only [insertBy]
    split
    · simp [List.mem_cons]
    · simp only [List.mem_cons, ih]
      tauto

theorem mem_sortSlice {α : Type} (less : α → α → Bool) (l : List α) (z : α) :
    z ∈ sortSlice less l ↔ z ∈ l := by
  induction l with
  | nil => simp [sortSlice]
  | cons x xs ih =>
    simp only [sortSlice, mem_insertBy, List.mem_cons, ih]

/-- Head of the insertion-sorted list is the strict maximum: if `m` beats
every other element of `l` under `less` (and `less` is irreflexive at `m`),
the sorted list starts with `m`. -/
theorem sortSlice_head_max {α : Type} (less : α → α → Bool) (l : List α) (m : α)
    (hm : m ∈ l) (hirr : less m m = false)
    (hwin : ∀ x ∈ l, x ≠ m → less m x = true)
    (hlose : ∀ x ∈ l, x ≠ m → less x m = false) :
    (sortSlice less l).head? = some m := by
  induction l with
  | nil => cases hm
  | cons x xs ih =>
    have hsub : ∀ z ∈ xs, z ∈ x :: xs := fun z hz => List.mem_cons_of_mem x hz
    rcases List.mem_cons.mp hm with hxm | hmxs
    · -- m is the head element
      subst hxm
      cases hs : sortSlice less xs with
      | nil => simp [sortSlice, hs, insertBy]
      | cons h t =>
        have hhxs : h ∈ xs := by
          have : h ∈ sortSlice less xs := by rw [hs]; exact List.mem_cons_self h t
          exact (mem_sortSlice less xs h).mp this
        by_cases hhm : h = m
        · subst hhm
          simp [sortSlice, hs, insertBy, hirr]
        · have : less m h = true := hwin h (hsub h hhxs) hhm
          simp [sortSlice, hs, insertBy, this]
    · -- m is in the tail
      have ihh : (sortSlice less xs).head? = some m :=
        ih hmxs (fun z hz hzm => hwin z (hsub z hz) hzm)
          (fun z hz hzm => hlose z (hsub z hz) hzm)
      cases hs : sortSlice less xs with
      | nil => rw [hs] at ihh; cases ihh
      | cons h t =>
        rw [hs] at ihh
        have hhm : h = m := by
          simpa using ihh
        subst hhm
        by_cases hxm : x = h
        · subst hxm
          simp [sortSlice, hs, insertBy, hirr]
        · have : less x h = false := hlose x (List.mem_cons_self x xs) hxm
          simp [sortSlice, hs, insertBy, this]

/-! ## Data model -/

/-- A DynamoDB record (`Item` in both Go sources: hash, filename, RFC3339
timestamp, all strings). -/
structure Item where
  Hash : String
  Filename : String
  Timestamp : String
deriving DecidableEq, Repr

/-- An S3 object as the pipeline observes it: key, last-modified instant
(nanoseconds, compared with `Time.After`), and content bytes. -/
structure S3Obj where
  Key : String
  LastModified : Int
  Content : Bytes
deriving DecidableEq, Repr

/-- The external world of one invocation: the `bucketName` environment
variable, the DynamoDB scan outcome, the bucket contents in listing order,
and the failure behaviour of each external call (the zip writer's `Create`
and `Close` steps included, since the Go code checks their errors). -/
structure Env where
  bucketName : String
  scan : Except String (List Item)
  objects : List S3Obj
  listErr : Option String
  getErr : String → Option String
  zipCreateErr : String → Option String
  zipCloseErr : Option String

/-- `events.APIGatewayProxyResponse` as the handlers build it. -/
structure Response where
  StatusCode : Nat
  Body : String
  Headers : List (String × String)
  IsBase64Encoded : Bool
deriving DecidableEq, Repr

/-- `s3.ListObjectsV2`: keys under `pfx`, in bucket listing order, capped at
`maxKeys` when the request sets one; `listErr` models a failed call. -/
def listObjects (env : Env) (pfx : String) (maxKeys : Option Nat) :
    Except String (List S3Obj) :=
  match env.listErr with
  | some e => .error ("failed to list objects in S3 bucket: " ++ e)
  | none =>
    match maxKeys with
    | some k => .ok ((env.objects.filter (fun o => strHasPfx pfx o.Key)).take k)
    | none => .ok (env.objects.filter (fun o => strHasPfx pfx o.Key))

/-- `s3.GetObject` + `io.ReadAll`: the object's bytes, or the upstream error
text (`getErr`, or the service's missing-key error). -/
def getObjectBytes (env : Env) (key : String) : Except String Bytes :=
  match env.getErr key with
  | some e => .error e
  | none =>
    match env.objects.find? (fun o => o.Key = key) with
    | some o => .ok o.Content
    | none => .error "NoSuchKey"

/-! ## Transport encoding and the archive container -/

/-- Standard base64 alphabet (Go `base64.StdEncoding`). -/
def b64Alphabet : List Char :=
  "ABCDEFGHIJKLMNOPQRSTUVWXYZabcdefghijklmnopqrstuvwxyz0123456789+/".data

/-- Alphabet char for a 6-bit value. -/
def b64Char (n : Nat) : Char := b64Alphabet.getD n 'A'

/-- Go `base64.StdEncoding.EncodeToString`: RFC 4648 base64 with padding. -/
def base64Encode : Bytes → String
  | [] => ""
  | [a] => String.mk [b64Char (a / 4), b64Char (a % 4 * 16), '=', '=']
  | [a, b] => String.mk [b64Char (a / 4), b64Char (a % 4 * 16 + b / 16),
                b64Char (b % 16 * 4), '=']
  | a :: b :: c :: rest =>
      String.mk [b64Char (a / 4), b64Char (a % 4 * 16 + b / 16),
        b64Char (b % 16 * 4 + c / 64), b64Char (c % 64)] ++ base64Encode rest

example : base64Encode (strBytes "Man") = "TWFu" := by decide
example : base64Encode (strBytes "Ma") = "TWE=" := by decide
example : base64Encode (strBytes "M") = "TQ==" := by decide

/-- One assembled archive entry: name (key with the lookup prefix stripped)
and content bytes, in the order `zipWriter.Create` was called. -/
abbrev ZipEntry := String × Bytes

/-- Little-endian 4-byte image of a number. -/
def natLE4 (n : Nat) : Bytes :=
  [n % 256, n / 256 % 256, n / 65536 % 256, n / 16777216 % 256]

/-- Byte image of the finalized archive `archive/zip` writes for the given
entries.  The writer itself is an external library: its per-entry
compression is opaque, so each entry is serialized by an injective
length-prefixed record behind a local-file magic, and `Close` appends the
end-of-central-directory marker — the container shape the claims rely on
(entry list, entry order, finalization), not the deflate bit stream. -/
def zipSerialize (entries : List ZipEntry) : Bytes :=
  (entries.map (fun e =>
     [80, 75, 3, 4] ++ natLE4 (strBytes e.1).length ++ strBytes e.1
       ++ natLE4 e.2.length ++ e.2)).flatten
  ++ [80, 75, 5, 6] ++ natLE4 entries.length

/-! ## `src/pkg/functions/methods.go` -/

/-- `GetLatestHashFilePair` of `methods.go`: scan the table, fail on a scan
error or an empty table, sort descending by the RAW timestamp string
(`items[i].Timestamp > items[j].Timestamp`), return the first record's
hash and filename. -/
def MethodsGo.GetLatestHashFilePair (scan : Except String (List Item)) :
    Except String (String × String) :=
  match scan with
  | .error e => .error ("failed to scan DynamoDB table: " ++ e)
  | .ok items =>
    if items.isEmpty then .error "no items found in DynamoDB table"
    else
      match sortSlice (fun i j => goStrLess j.Timestamp i.Timestamp) items with
      | [] => .error "no items found in DynamoDB table"
      | x :: _ => .ok (x.Hash, x.Filename)

/-- `ReadZipFileFromS3`: fetch one object's bytes, wrapping a fetch failure
as `failed to get object from S3: ...`. -/
def MethodsGo.ReadZipFileFromS3 (env : Env) (fileName : String) :
    Except String Bytes :=
  match getObjectBytes env fileName with
  | .error e => .error ("failed to get object from S3: " ++ e)
  | .ok b => .ok b

/-- `GetLatestFileKeyFromS3`: list the whole bucket (no prefix, no explicit
cap in the source), sort descending by `LastModified` (`Time.After`), fail
on an empty bucket, return the first key. -/
def MethodsGo.GetLatestFileKeyFromS3 (env : Env) : Except String String :=
  match listObjects env "" none with
  | .error e => .error e
  | .ok objs =>
    match sortSlice (fun a b => decide (b.LastModified < a.LastModified)) objs with
    | [] => .error "no objects found in bucket"
    | o :: _ => .ok o.Key

/-- `GetZipFileFromS3`, the direct-latest GET pipeline: missing `bucketName`
short-circuits to a 500; a listing/empty-bucket failure or a fetch failure
becomes a 500 with the upstream text; otherwise a 200 carrying the raw
object bytes, zip content type, an attachment filename equal to the key,
and `IsBase64Encoded = true`. -/
def MethodsGo.GetZipFileFromS3 (env : Env) : Response :=
  if env.bucketName = "" then
    { StatusCode := 500, Body := "S3 bucket name is not set",
      Headers := [], IsBase64Encoded := false }
  else
    match MethodsGo.GetLatestFileKeyFromS3 env with
    | .error e =>
      { StatusCode := 500, Body := "Error getting the latest file from S3: " ++ e,
        Headers := [], IsBase64Encoded := false }
    | .ok fileKey =>
      match MethodsGo.ReadZipFileFromS3 env fileKey with
      | .error e =>
        { StatusCode := 500, Body := "Error reading file from S3: " ++ e,
          Headers := [], IsBase64Encoded := false }
      | .ok data =>
        { StatusCode := 200, Body := byteStr data,
          Headers := [("Content-Type", "application/zip"),
            ("Content-Disposition", "attachment; filename=\"" ++ fileKey ++ "\"")],
          IsBase64Encoded := true }

/-! ## `src/unnamed/part_000` -/

/-- `GetLatestHashFilePair` of `part_000`: as in `methods.go` but sorting by
the PARSED timestamps (`time.Parse(time.RFC3339, ...)` then `Time.After`),
a failed parse degrading to the zero time. -/
def Part000.GetLatestHashFilePair (scan : Except String (List Item)) :
    Except String (String × String) :=
  match scan with
  | .error e => .error ("failed to scan DynamoDB table: " ++ e)
  | .ok items =>
    if items.isEmpty then .error "no items found in DynamoDB table"
    else
      match sortSlice (fun i j => decide (goTimeKey j.Timestamp < goTimeKey i.Timestamp)) items with
      | [] => .error "no items found in DynamoDB table"
      | x :: _ => .ok (x.Hash, x.Filename)

/-- Loop body of `fetchAndZipObjects` over the listed objects: skip
directory markers (keys ending in `/`), fetch each object's bytes, create
the zip entry under the key with the prefix stripped, abort on the first
fetch or entry-write failure.  `zipCreateErr` stands for a failure of
either `zipWriter.Create` or the `io.Copy` into the entry. -/
def zipObjectsLoop (env : Env) (pfx : String) : List S3Obj → Except String (List ZipEntry)
  | [] => .ok []
  | o :: rest =>
    if strEndsWith o.Key "/" then zipObjectsLoop env pfx rest
    else
      match getObjectBytes env o.Key with
      | .error e => .error ("failed to get object " ++ o.Key ++ " from S3: " ++ e)
      | .ok content =>
        let fileName := trimPfx o.Key pfx
        match env.zipCreateErr fileName with
        | some e => .error ("failed to create file in zip: " ++ e)
        | none =>
          match zipObjectsLoop env pfx rest with
          | .error e => .error e
          | .ok entries => .ok ((fileName, content) :: entries)

/-- `fetchAndZipObjects`: list the bucket under `pfx` (`MaxKeys` 1000 in the
source), then write one zip entry per listed non-directory object. -/
def fetchAndZipObjects (env : Env) (pfx : String) : Except String (List ZipEntry) :=
  match listObjects env pfx (some 1000) with
  | .error e => .error e
  | .ok objs => zipObjectsLoop env pfx objs

/-- `GetLatestHashFilePairAndZip`, the zip-all-then-encode GET pipeline:
missing `bucketName` → 500; record-store failure → 500 with the upstream
text; assembly failure → 500 with the upstream text; zip finalization
failure → 500; otherwise a 200 whose body is the base64 of the finalized
archive of the whole bucket, named `<hash>.zip`, with no
`IsBase64Encoded` flag (the Go literal leaves it at its zero value
`false`). -/
def Part000.GetLatestHashFilePairAndZip (env : Env) : Response :=
  if env.bucketName = "" then
    { StatusCode := 500, Body := "S3 bucket name is not set",
      Headers := [], IsBase64Encoded := false }
  else
    match Part000.GetLatestHashFilePair env.scan with
    | .error e =>
      { StatusCode := 500, Body := "Error fetching latest hash from DynamoDB: " ++ e,
        Headers := [], IsBase64Encoded := false }
    | .ok hf =>
      match fetchAndZipObjects env "" with
      | .error e =>
        { StatusCode := 500, Body := "Error fetching and zipping objects: " ++ e,
          Headers := [], IsBase64Encoded := false }
      | .ok entries =>
        match env.zipCloseErr with
        | some e =>
          { StatusCode := 500, Body := "Error closing zip writer: " ++ e,
            Headers := [], IsBase64Encoded := false }
        | none =>
          { StatusCode := 200,
            Body := base64Encode (zipSerialize entries),
            Headers := [("Content-Type", "application/zip"),
              ("Content-Disposition",
                "attachment; filename=\"" ++ (hf.1 ++ ".zip") ++ "\"")],
            IsBase64Encoded := false }

/-! ## `src/pkg/handlers/handlers.go` — the two `Handler` variants -/

/-- The `Handler` variant dispatching GET to `GetZipFileFromS3`; any other
method gets the fixed 405 response. -/
def HandlerGetZip (env : Env) (httpMethod : String) : Response :=
  if httpMethod = "GET" then MethodsGo.GetZipFileFromS3 env
  else
    { StatusCode := 405, Body := "Method not allowed",
      Headers := [], IsBase64Encoded := false }

/-- The `Handler` variant dispatching GET to `GetLatestHashFilePairAndZip`;
any other method gets the fixed 405 response. -/
def HandlerZipAll (env : Env) (httpMethod : String) : Response :=
  if httpMethod = "GET" then Part000.GetLatestHashFilePairAndZip env
  else
    { StatusCode := 405, Body := "Method not allowed",
      Headers := [], IsBase64Encoded := false }

/-- Modelled from the spec: the zip-by-hash-folder pipeline variant
(spec section 4.4, strategy (c)) has no implementation under `src/` — only
the spec describes it.  Faithful to the spec's words: obtain the latest
hash from the RecordStore, treat `<hash>/` as a prefix, locate the single
object under that prefix whose key ends in `.zip`, fetch it directly,
base64-encode it, name the download `<hash>.zip`; a missing archive is the
scenario-8 error `no zip file found`. -/
def ZipByHashFolder (env : Env) : Response :=
  if env.bucketName = "" then
    { StatusCode := 500, Body := "S3 bucket name is not set",
      Headers := [], IsBase64Encoded := false }
  else
    match Part000.GetLatestHashFilePair env.scan with
    | .error e =>
      { StatusCode := 500, Body := "Error fetching latest hash from DynamoDB: " ++ e,
        Headers := [], IsBase64Encoded := false }
    | .ok hf =>
      match listObjects env (hf.1 ++ "/") (some 1000) with
      | .error e =>
        { StatusCode := 500, Body := "Error listing objects in S3: " ++ e,
          Headers := [], IsBase64Encoded := false }
      | .ok objs =>
        match objs.find? (fun o => strEndsWith o.Key ".zip") with
        | none =>
          { StatusCode := 500,
            Body := "no zip file found under prefix " ++ (hf.1 ++ "/"),
            Headers := [], IsBase64Encoded := false }
        | some o =>
          match getObjectBytes env o.Key with
          | .error e =>
            { StatusCode := 500, Body := "Error reading file from S3: " ++ e,
              Headers := [], IsBase64Encoded := false }
          | .ok data =>
            { StatusCode := 200, Body := base64Encode data,
              Headers := [("Content-Type", "application/zip"),
                ("Content-Disposition",
                  "attachment; filename=\"" ++ (hf.1 ++ ".zip") ++ "\"")],
              IsBase64Encoded := false }

/-! ## Helper lemmas -/

/-- The empty prefix is a prefix of every key. -/
theorem strHasPfx_empty (s : String) : strHasPfx "" s = true := by
  simp [strHasPfx]

/-- Stripping the empty prefix is the identity. -/
theorem trimPfx_empty (s : String) : trimPfx s "" = s := by
  simp [trimPfx]

/-- Stripping a prefix cannot create a suffix that was not there. -/
theorem trimPfx_not_endsWith (k p suf : String) (h : strEndsWith k suf = false) :
    strEndsWith (trimPfx k p) suf = false := by
  unfold strEndsWith at h
  unfold strEndsWith trimPfx
  split
  · rw [Bool.eq_false_iff] at h ⊢
    intro hcon
    apply h
    rw [List.isSuffixOf_iff_suffix] at hcon ⊢
    exact hcon.trans (List.drop_suffix _ _)
  · exact h

/-- In a list with pairwise-distinct keys, looking a member up by its own
key finds exactly it. -/
theorem find?_key_self (l : List S3Obj) (m : S3Obj) (hm : m ∈ l)
    (hkeys : l.Pairwise (fun a b => a.Key ≠ b.Key)) :
    l.find? (fun o => o.Key = m.Key) = some m := by
  induction l with
  | nil => cases hm
  | cons x xs ih =>
    rcases List.mem_cons.mp hm with rfl | hmxs
    · simp [List.find?]
    · have hx : x.Key ≠ m.Key := (List.pairwise_cons.mp hkeys).1 m hmxs
      have hrec := ih hmxs (List.pairwise_cons.mp hkeys).2
      have hdec : decide (x.Key = m.Key) = false := by simp [hx]
      simp only [List.find?, hdec]
      exact hrec

/-! ## Claim C8 — empty record table fails with EmptyResult -/

/-- Claim C8: when the record table contains zero records, both copies of
`GetLatestHashFilePair` fail with the EmptyResult error
(`no items found in DynamoDB table`) rather than returning any
hash/filename pair. -/
theorem emptyTable_emptyResult :
    Part000.GetLatestHashFilePair (.ok []) = .error "no items found in DynamoDB table" ∧
    MethodsGo.GetLatestHashFilePair (.ok []) = .error "no items found in DynamoDB table" :=
  ⟨rfl, rfl⟩

/-! ## Claim C7 — non-GET methods get the fixed 405 response -/

/-- Claim C7: for every request whose HTTP method is not `GET`, both
`Handler` variants return exactly the fixed
`405 / Method not allowed` response; the result is the same constant for
every environment, so no store call or other processing influences it. -/
theorem nonGet_method_405 (env : Env) (m : String) (hm : m ≠ "GET") :
    HandlerGetZip env m =
      { StatusCode := 405, Body := "Method not allowed",
        Headers := [], IsBase64Encoded := false } ∧
    HandlerZipAll env m =
      { StatusCode := 405, Body := "Method not allowed",
        Headers := [], IsBase64Encoded := false } := by
  unfold HandlerGetZip HandlerZipAll
  rw [if_neg hm, if_neg hm]
  exact ⟨rfl, rfl⟩

/-- Environment used to witness claim C7. -/
def envC7 : Env :=
  { bucketName := "halogen-bucket", scan := .ok [], objects := [],
    listErr := none, getErr := fun _ => none,
    zipCreateErr := fun _ => none, zipCloseErr := none }

/-- Witness for claim C7 at the spec's scenario input, method `POST`. -/
theorem nonGet_method_405_witness :
    HandlerGetZip envC7 "POST" =
      { StatusCode := 405, Body := "Method not allowed",
        Headers := [], IsBase64Encoded := false } ∧
    HandlerZipAll envC7 "POST" =
      { StatusCode := 405, Body := "Method not allowed",
        Headers := [], IsBase64Encoded := false } :=
  nonGet_method_405 envC7 "POST" (by decide)

/-! ## Claim C6 — missing bucket configuration short-circuits to a 500 -/

/-- Claim C6: when the `bucketName` configuration value is absent (empty),
a GET request on either `Handler` variant returns a 500 whose body contains
`bucket name is not set`.  The response is the same constant for every
scan outcome and bucket content, so it is produced before any record-store
or object-store call can influence it. -/
theorem missingBucket_500 (env : Env) (hb : env.bucketName = "") :
    HandlerGetZip env "GET" =
      { StatusCode := 500, Body := "S3 bucket name is not set",
        Headers := [], IsBase64Encoded := false } ∧
    HandlerZipAll env "GET" =
      { StatusCode := 500, Body := "S3 bucket name is not set",
        Headers := [], IsBase64Encoded := false } ∧
    containsStr "S3 bucket name is not set" "bucket name is not set" := by
  refine ⟨?_, ?_, by decide⟩
  · unfold HandlerGetZip MethodsGo.GetZipFileFromS3
    rw [if_pos rfl, if_pos hb]
  · unfold HandlerZipAll Part000.GetLatestHashFilePairAndZip
    rw [if_pos rfl, if_pos hb]

/-- Environment used to witness claim C6: no bucket name set. -/
def envC6 : Env :=
  { bucketName := "", scan := .ok [], objects := [],
    listErr := none, getErr := fun _ => none,
    zipCreateErr := fun _ => none, zipCloseErr := none }

/-- Witness for claim C6: concrete invocation with the bucket setting
absent. -/
theorem missingBucket_500_witness :
    HandlerGetZip envC6 "GET" =
      { StatusCode := 500, Body := "S3 bucket name is not set",
        Headers := [], IsBase64Encoded := false } ∧
    HandlerZipAll envC6 "GET" =
      { StatusCode := 500, Body := "S3 bucket name is not set",
        Headers := [], IsBase64Encoded := false } ∧
    containsStr "S3 bucket name is not set" "bucket name is not set" :=
  missingBucket_500 envC6 rfl

/-! ## Claim C1 — which record is "latest" -/

/-- Core of claim C1 for the RFC3339-parsing copy (`part_000`): when `m`
has the strictly greatest parsed timestamp, the sorted scan starts with
`m`, whatever order the records arrived in. -/
theorem part000_latest_core (items : List Item) (m : Item)
    (hm : m ∈ items)
    (hmax : ∀ i ∈ items, i ≠ m → goTimeKey i.Timestamp < goTimeKey m.Timestamp) :
    Part000.GetLatestHashFilePair (.ok items) = .ok (m.Hash, m.Filename) := by
  have hne : items ≠ [] := List.ne_nil_of_mem hm
  have hhead := sortSlice_head_max
      (fun i j => decide (goTimeKey j.Timestamp < goTimeKey i.Timestamp)) items m hm
      (by simp)
      (fun x hx hxm => decide_eq_true (hmax x hx hxm))
      (fun x hx hxm => decide_eq_false (not_lt.mpr (le_of_lt (hmax x hx hxm))))
  have hempty : items.isEmpty = false := by
    simp [List.isEmpty_iff, hne]
  cases hs : sortSlice (fun i j => decide (goTimeKey j.Timestamp < goTimeKey i.Timestamp)) items with
  | nil => rw [hs] at hhead; cases hhead
  | cons x t =>
    rw [hs] at hhead
    have hxm : x = m := by simpa using hhead
    subst hxm
    simp only [Part000.GetLatestHashFilePair, hempty, Bool.false_eq_true, if_false, hs]

/-- Claim C1, amended: for every set of records whose timestamps all parse
as RFC3339 and whose parsed instants admit a strict maximum, the
RFC3339-parsing copy of `GetLatestHashFilePair` (`part_000`) returns the
hash and filename of the record with the maximum timestamp regardless of
the order in which the records arrive from the store scan.  The
string-comparison copy in `methods.go` does NOT satisfy this whenever the
timestamps carry differing UTC offsets (see the counterexample). -/
theorem latestRecord_parse_sort_max (items : List Item) (m : Item)
    (hm : m ∈ items)
    (_hparse : ∀ i ∈ items, (parseRFC3339 i.Timestamp).isSome = true)
    (hmax : ∀ i ∈ items, i ≠ m → goTimeKey i.Timestamp < goTimeKey m.Timestamp) :
    Part000.GetLatestHashFilePair (.ok items) = .ok (m.Hash, m.Filename) ∧
    ∀ items2, items.Perm items2 →
      Part000.GetLatestHashFilePair (.ok items2) = .ok (m.Hash, m.Filename) := by
  refine ⟨part000_latest_core items m hm hmax, fun items2 hp => ?_⟩
  exact part000_latest_core items2 m (hp.mem_iff.mp hm)
    (fun i hi him => hmax i (hp.mem_iff.mpr hi) him)

/-- Counterexample to claim C1 as stated: two records with distinct,
valid RFC3339 timestamps, where `2024-01-01T10:00:00Z` is the later
instant (the `+09:00` stamp is 03:00 UTC), yet the `methods.go` copy of
`GetLatestHashFilePair` — which compares the raw timestamp strings —
returns the OTHER record's hash/filename pair. -/
theorem strSort_mixed_offset_cex :
    MethodsGo.GetLatestHashFilePair (.ok
        [{ Hash := "h1", Filename := "f1", Timestamp := "2024-01-01T10:00:00Z" },
         { Hash := "h2", Filename := "f2", Timestamp := "2024-01-01T12:00:00+09:00" }]) =
      .ok ("h2", "f2") ∧
    (parseRFC3339 "2024-01-01T10:00:00Z").isSome = true ∧
    (parseRFC3339 "2024-01-01T12:00:00+09:00").isSome = true ∧
    goTimeKey "2024-01-01T12:00:00+09:00" < goTimeKey "2024-01-01T10:00:00Z" ∧
    ("h2", "f2") ≠ (("h1", "f1") : String × String) := by
  refine ⟨rfl, by decide, by decide, by decide, by decide⟩

/-- Witness for the amended claim C1: on the same two records, the
RFC3339-parsing copy does return the maximum-instant record. -/
theorem latestRecord_parse_sort_max_witness :
    Part000.GetLatestHashFilePair (.ok
        [{ Hash := "h1", Filename := "f1", Timestamp := "2024-01-01T10:00:00Z" },
         { Hash := "h2", Filename := "f2", Timestamp := "2024-01-01T12:00:00+09:00" }]) =
      .ok ("h1", "f1") ∧
    ∀ items2,
      List.Perm
        [{ Hash := "h1", Filename := "f1", Timestamp := "2024-01-01T10:00:00Z" },
         { Hash := "h2", Filename := "f2", Timestamp := "2024-01-01T12:00:00+09:00" }] items2 →
      Part000.GetLatestHashFilePair (.ok items2) = .ok ("h1", "f1") :=
  latestRecord_parse_sort_max
    [{ Hash := "h1", Filename := "f1", Timestamp := "2024-01-01T10:00:00Z" },
     { Hash := "h2", Filename := "f2", Timestamp := "2024-01-01T12:00:00+09:00" }]
    { Hash := "h1", Filename := "f1", Timestamp := "2024-01-01T10:00:00Z" }
    (by decide) (by decide) (by decide)

/-! ## Claim C2 — direct-latest strategy happy path -/

/-- Claim C2: in the direct-latest strategy, for a bucket whose objects
have pairwise-distinct last-modified times (stated as: `m` is the strict
maximum) and distinct keys, with no store failures, a GET request yields a
200 response whose body is the raw bytes of the most-recently-modified
object, with `Content-Disposition attachment; filename="<key>"`,
`Content-Type application/zip`, and `IsBase64Encoded = true`. -/
theorem directLatest_happy (env : Env) (m : S3Obj)
    (hb : env.bucketName ≠ "")
    (hlist : env.listErr = none)
    (hget : ∀ k, env.getErr k = none)
    (hm : m ∈ env.objects)
    (hkeys : env.objects.Pairwise (fun a b => a.Key ≠ b.Key))
    (hmax : ∀ o ∈ env.objects, o ≠ m → o.LastModified < m.LastModified) :
    HandlerGetZip env "GET" =
      { StatusCode := 200, Body := byteStr m.Content,
        Headers := [("Content-Type", "application/zip"),
          ("Content-Disposition", "attachment; filename=\"" ++ m.Key ++ "\"")],
        IsBase64Encoded := true } := by
  have hfilter : env.objects.filter (fun o => strHasPfx "" o.Key) = env.objects :=
    List.filter_eq_self.mpr (fun a _ => strHasPfx_empty a.Key)
  have hhead := sortSlice_head_max (fun a b => decide (b.LastModified < a.LastModified))
      env.objects m hm (by simp)
      (fun x hx hxm => decide_eq_true (hmax x hx hxm))
      (fun x hx hxm => decide_eq_false (not_lt.mpr (le_of_lt (hmax x hx hxm))))
  cases hs : sortSlice (fun a b => decide (b.LastModified < a.LastModified)) env.objects with
  | nil => rw [hs] at hhead; cases hhead
  | cons x t =>
    rw [hs] at hhead
    have hxm : x = m := by simpa using hhead
    rw [hxm] at hs
    have hkey : MethodsGo.GetLatestFileKeyFromS3 env = .ok m.Key := by
      simp only [MethodsGo.GetLatestFileKeyFromS3, listObjects, hlist, hfilter, hs]
    have hread : MethodsGo.ReadZipFileFromS3 env m.Key = .ok m.Content := by
      simp only [MethodsGo.ReadZipFileFromS3, getObjectBytes, hget m.Key,
        find?_key_self env.objects m hm hkeys]
    unfold HandlerGetZip
    rw [if_pos rfl]
    unfold MethodsGo.GetZipFileFromS3
    rw [if_neg hb, hkey]
    simp [hread]

/-- Environment used to witness claim C2: the spec's scenario-6 bucket. -/
def envC2 : Env :=
  { bucketName := "halogen-bucket", scan := .ok [],
    objects :=
      [{ Key := "2024-01-01/report.zip", LastModified := 1, Content := [80, 75, 7] },
       { Key := "2024-02-01/report.zip", LastModified := 2, Content := [80, 75, 9, 1] }],
    listErr := none, getErr := fun _ => none,
    zipCreateErr := fun _ => none, zipCloseErr := none }

/-- Witness for claim C2 on the scenario-6 bucket: the second object is the
most recently modified and its bytes come back raw. -/
theorem directLatest_happy_witness :
    HandlerGetZip envC2 "GET" =
      { StatusCode := 200, Body := byteStr [80, 75, 9, 1],
        Headers := [("Content-Type", "application/zip"),
          ("Content-Disposition", "attachment; filename=\"2024-02-01/report.zip\"")],
        IsBase64Encoded := true } :=
  directLatest_happy envC2
    { Key := "2024-02-01/report.zip", LastModified := 2, Content := [80, 75, 9, 1] }
    (by decide) rfl (fun _ => rfl) (by decide) (by decide) (by decide)

/-! ## The assembler loop on a fully-available store -/

/-- When every fetch and every entry write succeeds, the assembler loop
produces exactly one entry per non-directory listed object, named by the
key with the prefix stripped, in listing order. -/
theorem zipObjectsLoop_ok (env : Env) (pfx : String) (l : List S3Obj)
    (hget : ∀ k, env.getErr k = none)
    (hcr : ∀ n, env.zipCreateErr n = none)
    (hfind : ∀ o ∈ l, env.objects.find? (fun o2 => o2.Key = o.Key) = some o) :
    zipObjectsLoop env pfx l =
      .ok ((l.filter (fun o => !strEndsWith o.Key "/")).map
        (fun o => (trimPfx o.Key pfx, o.Content))) := by
  induction l with
  | nil => rfl
  | cons o rest ih =>
    have hrest := ih (fun o2 h2 => hfind o2 (List.mem_cons_of_mem o h2))
    by_cases hd : strEndsWith o.Key "/"
    · simp only [zipObjectsLoop, hd, if_true, hrest, List.filter_cons,
        Bool.not_true, Bool.false_eq_true, if_false]
    · have hfo := hfind o (List.mem_cons_self o rest)
      have hd' : strEndsWith o.Key "/" = false := by
        simpa using hd
      simp only [zipObjectsLoop, hd', Bool.false_eq_true, if_false, getObjectBytes,
        hget o.Key, hfo, hcr, hrest, List.filter_cons, Bool.not_false, if_true,
        List.map_cons]

/-! ## Claim C3 — zip-all-then-encode success response -/

/-- Claim C3: in the zip-all-then-encode strategy, a successful GET
response has body equal to the base64 encoding of the assembled ZIP of
every object in the bucket (prefix empty — entry names are the full keys),
`Content-Disposition` filename `<latest hash>.zip` with the record's
`fileName` (`fn`, arbitrary here) unused, and `IsBase64Encoded` left
`false` — unlike the direct-latest strategy, which is the only one setting
it to `true`. -/
theorem zipAll_success (env : Env) (hsh fn : String)
    (hb : env.bucketName ≠ "")
    (hscan : Part000.GetLatestHashFilePair env.scan = .ok (hsh, fn))
    (hlist : env.listErr = none)
    (hget : ∀ k, env.getErr k = none)
    (hcr : ∀ n, env.zipCreateErr n = none)
    (hclose : env.zipCloseErr = none)
    (hkeys : env.objects.Pairwise (fun a b => a.Key ≠ b.Key))
    (hlen : env.objects.length ≤ 1000)
    (hdir : ∀ o ∈ env.objects, strEndsWith o.Key "/" = false) :
    Part000.GetLatestHashFilePairAndZip env =
      { StatusCode := 200,
        Body := base64Encode (zipSerialize (env.objects.map (fun o => (o.Key, o.Content)))),
        Headers := [("Content-Type", "application/zip"),
          ("Content-Disposition", "attachment; filename=\"" ++ (hsh ++ ".zip") ++ "\"")],
        IsBase64Encoded := false } := by
  have hfilter : env.objects.filter (fun o => strHasPfx "" o.Key) = env.objects :=
    List.filter_eq_self.mpr (fun a _ => strHasPfx_empty a.Key)
  have hfilter2 : env.objects.filter (fun o => !strEndsWith o.Key "/") = env.objects :=
    List.filter_eq_self.mpr (fun a ha => by rw [hdir a ha]; rfl)
  have hloop := zipObjectsLoop_ok env "" env.objects hget hcr
    (fun o ho => find?_key_self env.objects o ho hkeys)
  have hmap : env.objects.map (fun o => (trimPfx o.Key "", o.Content)) =
      env.objects.map (fun o => (o.Key, o.Content)) :=
    List.map_congr_left (fun a _ => by rw [trimPfx_empty])
  have hfetch : fetchAndZipObjects env "" =
      .ok (env.objects.map (fun o => (o.Key, o.Content))) := by
    simp only [fetchAndZipObjects, listObjects, hlist, hfilter,
      List.take_of_length_le hlen, hloop, hfilter2, hmap]
  unfold Part000.GetLatestHashFilePairAndZip
  rw [if_neg hb, hscan]
  simp only [hfetch, hclose]

/-- Environment used to witness claim C3: one record, two objects. -/
def envC3 : Env :=
  { bucketName := "halogen-bucket",
    scan := .ok [{ Hash := "abc123", Filename := "ignored.zip",
                   Timestamp := "2024-05-01T00:00:00Z" }],
    objects :=
      [{ Key := "a.txt", LastModified := 1, Content := [104, 105] },
       { Key := "b/c.txt", LastModified := 2, Content := [104, 111] }],
    listErr := none, getErr := fun _ => none,
    zipCreateErr := fun _ => none, zipCloseErr := none }

/-- Witness for claim C3: the archive holds both objects under their full
keys, the download is named `abc123.zip`, and the flag stays `false`. -/
theorem zipAll_success_witness :
    Part000.GetLatestHashFilePairAndZip envC3 =
      { StatusCode := 200,
        Body := base64Encode (zipSerialize
          [("a.txt", [104, 105]), ("b/c.txt", [104, 111])]),
        Headers := [("Content-Type", "application/zip"),
          ("Content-Disposition", "attachment; filename=\"" ++ ("abc123" ++ ".zip") ++ "\"")],
        IsBase64Encoded := false } :=
  zipAll_success envC3 "abc123" "ignored.zip" (by decide) rfl rfl
    (fun _ => rfl) (fun _ => rfl) rfl (by decide) (by decide) (by decide)

/-! ## Claim C9 — entry names produced by the assembler -/

/-- Claim C9: for every listing under a prefix (no store failures, distinct
keys), the assembler's entries are exactly the listed non-directory
objects in listing order; no produced entry name ends in `/`, and every
entry name is the corresponding object key with the lookup prefix stripped
from its start. -/
theorem assembler_entries_shape (env : Env) (pfx : String)
    (hlist : env.listErr = none)
    (hget : ∀ k, env.getErr k = none)
    (hcr : ∀ n, env.zipCreateErr n = none)
    (hkeys : env.objects.Pairwise (fun a b => a.Key ≠ b.Key)) :
    fetchAndZipObjects env pfx =
      .ok ((((env.objects.filter (fun o => strHasPfx pfx o.Key)).take 1000).filter
          (fun o => !strEndsWith o.Key "/")).map (fun o => (trimPfx o.Key pfx, o.Content))) ∧
    ∀ entries, fetchAndZipObjects env pfx = .ok entries →
      (∀ p ∈ entries, strEndsWith p.1 "/" = false) ∧
      ∀ p ∈ entries, ∃ o, o ∈ env.objects ∧ strHasPfx pfx o.Key = true ∧
        strEndsWith o.Key "/" = false ∧ p = (trimPfx o.Key pfx, o.Content) := by
  have hfind : ∀ o ∈ (env.objects.filter (fun o => strHasPfx pfx o.Key)).take 1000,
      env.objects.find? (fun o2 => o2.Key = o.Key) = some o := by
    intro o ho
    exact find?_key_self env.objects o
      (List.mem_of_mem_filter (List.mem_of_mem_take ho)) hkeys
  have hfetch : fetchAndZipObjects env pfx =
      .ok ((((env.objects.filter (fun o => strHasPfx pfx o.Key)).take 1000).filter
          (fun o => !strEndsWith o.Key "/")).map (fun o => (trimPfx o.Key pfx, o.Content))) := by
    simp only [fetchAndZipObjects, listObjects, hlist,
      zipObjectsLoop_ok env pfx _ hget hcr hfind]
  refine ⟨hfetch, fun entries he => ?_⟩
  rw [hfetch] at he
  have hent : entries =
      (((env.objects.filter (fun o => strHasPfx pfx o.Key)).take 1000).filter
          (fun o => !strEndsWith o.Key "/")).map (fun o => (trimPfx o.Key pfx, o.Content)) := by
    cases he; rfl
  subst hent
  constructor
  · intro p hp
    rcases List.mem_map.mp hp with ⟨o, ho, rfl⟩
    have hdir : strEndsWith o.Key "/" = false := by
      have := (List.mem_filter.mp ho).2
      simpa using this
    exact trimPfx_not_endsWith o.Key pfx "/" hdir
  · intro p hp
    rcases List.mem_map.mp hp with ⟨o, ho, rfl⟩
    have hdir : strEndsWith o.Key "/" = false := by
      have := (List.mem_filter.mp ho).2
      simpa using this
    have ho2 := List.mem_of_mem_filter ho
    have ho3 := List.mem_of_mem_take ho2
    exact ⟨o, List.mem_of_mem_filter ho3, (List.mem_filter.mp ho3).2, hdir, rfl⟩

/-- Environment used to witness claim C9: a folder with a directory
marker, two files, and an unrelated key outside the prefix. -/
def envC9 : Env :=
  { bucketName := "halogen-bucket", scan := .ok [],
    objects :=
      [{ Key := "run1/", LastModified := 0, Content := [] },
       { Key := "run1/a.txt", LastModified := 1, Content := [1, 2] },
       { Key := "run1/sub/b.txt", LastModified := 2, Content := [3] },
       { Key := "other.txt", LastModified := 3, Content := [4] }],
    listErr := none, getErr := fun _ => none,
    zipCreateErr := fun _ => none, zipCloseErr := none }

/-- Witness for claim C9 under prefix `run1/`: the marker key is skipped
and both file entries are named with the prefix stripped, in listing
order. -/
theorem assembler_entries_shape_witness :
    fetchAndZipObjects envC9 "run1/" =
      .ok ((((envC9.objects.filter (fun o => strHasPfx "run1/" o.Key)).take 1000).filter
          (fun o => !strEndsWith o.Key "/")).map
            (fun o => (trimPfx o.Key "run1/", o.Content))) ∧
    ∀ entries, fetchAndZipObjects envC9 "run1/" = .ok entries →
      (∀ p ∈ entries, strEndsWith p.1 "/" = false) ∧
      ∀ p ∈ entries, ∃ o, o ∈ envC9.objects ∧ strHasPfx "run1/" o.Key = true ∧
        strEndsWith o.Key "/" = false ∧ p = (trimPfx o.Key "run1/", o.Content) :=
  assembler_entries_shape envC9 "run1/" rfl (fun _ => rfl) (fun _ => rfl) (by decide)

/-! ## Claim C10 — an empty bucket is not an error -/

/-- Claim C10: in the zip-all-then-encode pipeline, an empty bucket (the
listing returns zero objects) is not treated as an error: the handler
returns a 200 whose body is the base64 encoding of the finalized archive
with zero entries (`zipSerialize []` — the writer was closed, appending
the end-of-archive record), not an EmptyResult-style 500. -/
theorem empty_bucket_zip_ok (env : Env) (hsh fn : String)
    (hb : env.bucketName ≠ "")
    (hscan : Part000.GetLatestHashFilePair env.scan = .ok (hsh, fn))
    (hobj : env.objects = [])
    (hlist : env.listErr = none)
    (hclose : env.zipCloseErr = none) :
    Part000.GetLatestHashFilePairAndZip env =
      { StatusCode := 200, Body := base64Encode (zipSerialize []),
        Headers := [("Content-Type", "application/zip"),
          ("Content-Disposition", "attachment; filename=\"" ++ (hsh ++ ".zip") ++ "\"")],
        IsBase64Encoded := false } ∧
    (Part000.GetLatestHashFilePairAndZip env).StatusCode ≠ 500 := by
  have hfetch : fetchAndZipObjects env "" = .ok [] := by
    simp only [fetchAndZipObjects, listObjects, hlist, hobj]
    rfl
  have hmain : Part000.GetLatestHashFilePairAndZip env =
      { StatusCode := 200, Body := base64Encode (zipSerialize []),
        Headers := [("Content-Type", "application/zip"),
          ("Content-Disposition", "attachment; filename=\"" ++ (hsh ++ ".zip") ++ "\"")],
        IsBase64Encoded := false } := by
    unfold Part000.GetLatestHashFilePairAndZip
    rw [if_neg hb, hscan]
    simp only [hfetch, hclose]
  refine ⟨hmain, ?_⟩
  rw [hmain]
  simp

/-- Environment used to witness claim C10: a record exists but the bucket
is empty. -/
def envC10 : Env :=
  { bucketName := "halogen-bucket",
    scan := .ok [{ Hash := "abc123", Filename := "f.zip",
                   Timestamp := "2024-05-01T00:00:00Z" }],
    objects := [], listErr := none, getErr := fun _ => none,
    zipCreateErr := fun _ => none, zipCloseErr := none }

/-- Witness for claim C10: concrete empty bucket yields the 200 with the
empty finalized archive. -/
theorem empty_bucket_zip_ok_witness :
    Part000.GetLatestHashFilePairAndZip envC10 =
      { StatusCode := 200, Body := base64Encode (zipSerialize []),
        Headers := [("Content-Type", "application/zip"),
          ("Content-Disposition", "attachment; filename=\"" ++ ("abc123" ++ ".zip") ++ "\"")],
        IsBase64Encoded := false } ∧
    (Part000.GetLatestHashFilePairAndZip envC10).StatusCode ≠ 500 :=
  empty_bucket_zip_ok envC10 "abc123" "f.zip" (by decide) rfl rfl rfl rfl

/-! ## Claim C5 — assembly failures abort first and surface as 500s -/

/-- The assembler loop aborts at the first fetch failure: whatever follows
the failing object in the listing, the loop returns that failure's wrapped
message. -/
theorem zipObjectsLoop_fail_get (env : Env) (pfx : String) (pre : List S3Obj)
    (o : S3Obj) (post : List S3Obj) (m : String)
    (hpre : ∀ p ∈ pre, strEndsWith p.Key "/" = false →
      (∃ b, getObjectBytes env p.Key = .ok b) ∧
        env.zipCreateErr (trimPfx p.Key pfx) = none)
    (ho : strEndsWith o.Key "/" = false)
    (hoerr : getObjectBytes env o.Key = .error m) :
    zipObjectsLoop env pfx (pre ++ o :: post) =
      .error ("failed to get object " ++ o.Key ++ " from S3: " ++ m) := by
  induction pre with
  | nil =>
    simp only [List.nil_append, zipObjectsLoop, ho, Bool.false_eq_true, if_false, hoerr]
  | cons p pre' ih =>
    have hih := ih (fun q hq hqd => hpre q (List.mem_cons_of_mem p hq) hqd)
    by_cases hp : strEndsWith p.Key "/"
    · simp only [List.cons_append, zipObjectsLoop, hp, if_true, List.append_eq, hih]
    · have hp' : strEndsWith p.Key "/" = false := by simpa using hp
      obtain ⟨⟨b, hb⟩, hcr⟩ := hpre p (List.mem_cons_self p pre') hp'
      simp only [List.cons_append, zipObjectsLoop, hp', Bool.false_eq_true, if_false,
        hb, hcr, List.append_eq, hih]

/-- The assembler loop aborts at the first entry-write failure likewise. -/
theorem zipObjectsLoop_fail_create (env : Env) (pfx : String) (pre : List S3Obj)
    (o : S3Obj) (post : List S3Obj) (e : String)
    (hpre : ∀ p ∈ pre, strEndsWith p.Key "/" = false →
      (∃ b, getObjectBytes env p.Key = .ok b) ∧
        env.zipCreateErr (trimPfx p.Key pfx) = none)
    (ho : strEndsWith o.Key "/" = false)
    (hob : ∃ b, getObjectBytes env o.Key = .ok b)
    (hcr : env.zipCreateErr (trimPfx o.Key pfx) = some e) :
    zipObjectsLoop env pfx (pre ++ o :: post) =
      .error ("failed to create file in zip: " ++ e) := by
  induction pre with
  | nil =>
    obtain ⟨b, hb⟩ := hob
    simp only [List.nil_append, zipObjectsLoop, ho, Bool.false_eq_true, if_false, hb, hcr]
  | cons p pre' ih =>
    have hih := ih (fun q hq hqd => hpre q (List.mem_cons_of_mem p hq) hqd)
    by_cases hp : strEndsWith p.Key "/"
    · simp only [List.cons_append, zipObjectsLoop, hp, if_true, List.append_eq, hih]
    · have hp' : strEndsWith p.Key "/" = false := by simpa using hp
      obtain ⟨⟨b, hb⟩, hcrp⟩ := hpre p (List.mem_cons_self p pre') hp'
      simp only [List.cons_append, zipObjectsLoop, hp', Bool.false_eq_true, if_false,
        hb, hcrp, List.append_eq, hih]

/-- Claim C5: every store-fetch or entry-write failure during archive
assembly aborts `fetchAndZipObjects` at the first such failure (whatever
objects follow it in the listing), the handler then returns a 500 whose
body includes the upstream error text, and no 200 response ever carries a
partially written archive — a 200 body is always the base64 of the
fully-assembled entry list. -/
theorem assembly_failure_propagates (env : Env) (hsh fn : String)
    (hb : env.bucketName ≠ "")
    (hscan : Part000.GetLatestHashFilePair env.scan = .ok (hsh, fn)) :
    (∀ e, fetchAndZipObjects env "" = .error e →
      Part000.GetLatestHashFilePairAndZip env =
        { StatusCode := 500, Body := "Error fetching and zipping objects: " ++ e,
          Headers := [], IsBase64Encoded := false } ∧
      containsStr ("Error fetching and zipping objects: " ++ e) e) ∧
    (∀ pfx pre o post m,
      listObjects env pfx (some 1000) = .ok (pre ++ o :: post) →
      (∀ p ∈ pre, strEndsWith p.Key "/" = false →
        (∃ b, getObjectBytes env p.Key = .ok b) ∧
          env.zipCreateErr (trimPfx p.Key pfx) = none) →
      strEndsWith o.Key "/" = false →
      getObjectBytes env o.Key = .error m →
      fetchAndZipObjects env pfx =
        .error ("failed to get object " ++ o.Key ++ " from S3: " ++ m)) ∧
    (∀ pfx pre o post e,
      listObjects env pfx (some 1000) = .ok (pre ++ o :: post) →
      (∀ p ∈ pre, strEndsWith p.Key "/" = false →
        (∃ b, getObjectBytes env p.Key = .ok b) ∧
          env.zipCreateErr (trimPfx p.Key pfx) = none) →
      strEndsWith o.Key "/" = false →
      (∃ b, getObjectBytes env o.Key = .ok b) →
      env.zipCreateErr (trimPfx o.Key pfx) = some e →
      fetchAndZipObjects env pfx = .error ("failed to create file in zip: " ++ e)) ∧
    ((Part000.GetLatestHashFilePairAndZip env).StatusCode = 200 →
      ∃ entries, fetchAndZipObjects env "" = .ok entries ∧
        (Part000.GetLatestHashFilePairAndZip env).Body =
          base64Encode (zipSerialize entries)) := by
  refine ⟨fun e he => ⟨?_, ?_⟩, fun pfx pre o post m hl hpre ho hoerr => ?_,
    fun pfx pre o post e hl hpre ho hob hcr => ?_, fun h200 => ?_⟩
  · unfold Part000.GetLatestHashFilePairAndZip
    rw [if_neg hb, hscan, he]
  · show ((_ : String)).data <:+: _
    rw [String.data_append]
    exact (List.suffix_append _ _).isInfix
  · unfold fetchAndZipObjects
    rw [hl]
    exact zipObjectsLoop_fail_get env pfx pre o post m hpre ho hoerr
  · unfold fetchAndZipObjects
    rw [hl]
    exact zipObjectsLoop_fail_create env pfx pre o post e hpre ho hob hcr
  · unfold Part000.GetLatestHashFilePairAndZip at h200 ⊢
    rw [if_neg hb, hscan] at h200 ⊢
    cases hfz : fetchAndZipObjects env "" with
    | error e => rw [hfz] at h200; simp at h200
    | ok entries =>
      cases hcl : env.zipCloseErr with
      | some e => rw [hfz] at h200; rw [hcl] at h200; simp at h200
      | none => exact ⟨entries, rfl, rfl⟩

/-- Environment used to witness claim C5: one record, one object whose
fetch fails with `boom`. -/
def envC5 : Env :=
  { bucketName := "halogen-bucket",
    scan := .ok [{ Hash := "abc123", Filename := "f.zip",
                   Timestamp := "2024-05-01T00:00:00Z" }],
    objects := [{ Key := "k1", LastModified := 1, Content := [7] }],
    listErr := none,
    getErr := fun k => if k = "k1" then some "boom" else none,
    zipCreateErr := fun _ => none, zipCloseErr := none }

/-- Witness for claim C5 at the concrete failing environment. -/
theorem assembly_failure_propagates_witness :
    (∀ e, fetchAndZipObjects envC5 "" = .error e →
      Part000.GetLatestHashFilePairAndZip envC5 =
        { StatusCode := 500, Body := "Error fetching and zipping objects: " ++ e,
          Headers := [], IsBase64Encoded := false } ∧
      containsStr ("Error fetching and zipping objects: " ++ e) e) ∧
    (∀ pfx pre o post m,
      listObjects envC5 pfx (some 1000) = .ok (pre ++ o :: post) →
      (∀ p ∈ pre, strEndsWith p.Key "/" = false →
        (∃ b, getObjectBytes envC5 p.Key = .ok b) ∧
          envC5.zipCreateErr (trimPfx p.Key pfx) = none) →
      strEndsWith o.Key "/" = false →
      getObjectBytes envC5 o.Key = .error m →
      fetchAndZipObjects envC5 pfx =
        .error ("failed to get object " ++ o.Key ++ " from S3: " ++ m)) ∧
    (∀ pfx pre o post e,
      listObjects envC5 pfx (some 1000) = .ok (pre ++ o :: post) →
      (∀ p ∈ pre, strEndsWith p.Key "/" = false →
        (∃ b, getObjectBytes envC5 p.Key = .ok b) ∧
          envC5.zipCreateErr (trimPfx p.Key pfx) = none) →
      strEndsWith o.Key "/" = false →
      (∃ b, getObjectBytes envC5 o.Key = .ok b) →
      envC5.zipCreateErr (trimPfx o.Key pfx) = some e →
      fetchAndZipObjects envC5 pfx = .error ("failed to create file in zip: " ++ e)) ∧
    ((Part000.GetLatestHashFilePairAndZip envC5).StatusCode = 200 →
      ∃ entries, fetchAndZipObjects envC5 "" = .ok entries ∧
        (Part000.GetLatestHashFilePairAndZip envC5).Body =
          base64Encode (zipSerialize entries)) :=
  assembly_failure_propagates envC5 "abc123" "f.zip" (by decide) rfl

/-! ## Claim C4 — zip-by-hash-folder with no matching archive -/

/-- Claim C4 (spec-modelled): in the zip-by-hash-folder strategy, when the
record store yields hash `hsh` and the bucket holds no key under the
prefix `<hsh>/` ending in `.zip`, the handler returns a 500 whose body
contains `no zip file found`. -/
theorem zipByHashFolder_no_zip (env : Env) (hsh fn : String)
    (hb : env.bucketName ≠ "")
    (hscan : Part000.GetLatestHashFilePair env.scan = .ok (hsh, fn))
    (hlist : env.listErr = none)
    (hnozip : ∀ o ∈ env.objects, strHasPfx (hsh ++ "/") o.Key = true →
      strEndsWith o.Key ".zip" = false) :
    (ZipByHashFolder env).StatusCode = 500 ∧
    containsStr (ZipByHashFolder env).Body "no zip file found" := by
  have hfind : ((env.objects.filter (fun o => strHasPfx (hsh ++ "/") o.Key)).take 1000).find?
      (fun o => strEndsWith o.Key ".zip") = none := by
    rw [List.find?_eq_none]
    intro o ho
    have ho2 := List.mem_of_mem_take ho
    have hmem := List.mem_of_mem_filter ho2
    have hpfx := (List.mem_filter.mp ho2).2
    simp [hnozip o hmem hpfx]
  have hres : ZipByHashFolder env =
      { StatusCode := 500, Body := "no zip file found under prefix " ++ (hsh ++ "/"),
        Headers := [], IsBase64Encoded := false } := by
    unfold ZipByHashFolder
    rw [if_neg hb, hscan]
    simp only [listObjects, hlist, hfind]
  rw [hres]
  refine ⟨rfl, ?_⟩
  show ("no zip file found").data <:+: _
  rw [String.data_append]
  have h1 : ("no zip file found").data <+: ("no zip file found under prefix ").data := by
    decide
  exact (h1.trans (List.prefix_append _ _)).isInfix

/-- Environment used to witness claim C4: the record store yields hash
`abc123`, and nothing under `abc123/` ends in `.zip`. -/
def envC4 : Env :=
  { bucketName := "halogen-bucket",
    scan := .ok [{ Hash := "abc123", Filename := "f.zip",
                   Timestamp := "2024-05-01T00:00:00Z" }],
    objects :=
      [{ Key := "abc123/readme.txt", LastModified := 1, Content := [1] },
       { Key := "other/archive.zip", LastModified := 2, Content := [2] }],
    listErr := none, getErr := fun _ => none,
    zipCreateErr := fun _ => none, zipCloseErr := none }

/-- Witness for claim C4 at the spec's scenario-8 input. -/
theorem zipByHashFolder_no_zip_witness :
    (ZipByHashFolder envC4).StatusCode = 500 ∧
    containsStr (ZipByHashFolder envC4).Body "no zip file found" :=
  zipByHashFolder_no_zip envC4 "abc123" "f.zip" (by decide) rfl rfl (by decide)
